import Mathlib

/-!
# Verification of libraft's Progress / RaftLog core

A shallow embedding of the two source files of this repository,
`src/progress.rs` (the per-follower replication state machine) and
`src/raft_log.rs` (the unified log view), together with theorems settling
the specification's claims about them.

Machine integers (`u64`, `usize`) are modelled as `Nat`; Rust's `-` on
unsigned integers appears only as `x - 1` on log indices, which the data
model keeps ≥ 1, and is modelled by truncated subtraction on `Nat`.
Functions that `panic!` in the source are modelled as returning `Option`
or `Except`, with the failing branch mapped to `none` / `.error`.
-/

namespace Libraft

/-! ## Progress (src/progress.rs) -/

/-- The three replication states of a follower, from `enum ProgressState`
in src/progress.rs. -/
inductive ProgressState where
  | Probe
  | Replicate
  | Snapshot
deriving DecidableEq, Repr

/-- The sliding window of unacknowledged replication messages, from
`struct Inflights` in src/progress.rs. `buffer` holds the index of the last
entry inside each outstanding message. -/
structure Inflights where
  start : Nat
  count : Nat
  size : Nat
  buffer : List Nat
deriving DecidableEq, Repr

/-- `Inflights::reset` (src/progress.rs): clears occupancy (`start`, `count`)
without touching `size` or the buffer storage. -/
def Inflights.reset (f : Inflights) : Inflights :=
  { f with start := 0, count := 0 }

/-- `Inflights::full` (src/progress.rs): `count == size`. -/
def Inflights.full (f : Inflights) : Bool :=
  f.count == f.size

/-- Per-follower replication progress, from `struct Progress` in
src/progress.rs (field `is_lenarner` is spelled as in the source). -/
structure Progress where
  matched : Nat
  next : Nat
  state : ProgressState
  paused : Bool
  pending_snapshot : Nat
  recent_active : Bool
  ins : Inflights
  is_lenarner : Bool
deriving DecidableEq, Repr

/-- `Progress::reset_state` (src/progress.rs): unpause, forget any pending
snapshot, enter `state`, and clear the inflights window. -/
def Progress.reset_state (p : Progress) (state : ProgressState) : Progress :=
  { p with paused := false, pending_snapshot := 0, state := state,
           ins := p.ins.reset }

/-- `Progress::become_probe` (src/progress.rs): from Snapshot, probe from
`max(matched+1, pending_snapshot+1)`; otherwise probe from `matched+1`. -/
def Progress.become_probe (p : Progress) : Progress :=
  if p.state = ProgressState.Snapshot then
    let pending_snapshot := p.pending_snapshot
    let p' := p.reset_state ProgressState.Probe
    { p' with next := max (p.matched + 1) (pending_snapshot + 1) }
  else
    let p' := p.reset_state ProgressState.Probe
    { p' with next := p.matched + 1 }

/-- `Progress::become_replicate` (src/progress.rs). -/
def Progress.become_replicate (p : Progress) : Progress :=
  let p' := p.reset_state ProgressState.Replicate
  { p' with next := p.matched + 1 }

/-- `Progress::become_snapshot` (src/progress.rs). -/
def Progress.become_snapshot (p : Progress) (index : Nat) : Progress :=
  let p' := p.reset_state ProgressState.Snapshot
  { p' with pending_snapshot := index }

/-- `Progress::resume` (src/progress.rs). -/
def Progress.resume (p : Progress) : Progress :=
  { p with paused := false }

/-- `Progress::maybe_update` (src/progress.rs): raise `matched` to `n` when
it is behind (unpausing and reporting the change), and raise `next` to at
least `n + 1`. Returns the updated flag together with the new state. -/
def Progress.maybe_update (p : Progress) (n : Nat) : Bool × Progress :=
  let (updated, p') :=
    if p.matched < n then
      (true, { p with matched := n }.resume)
    else
      (false, p)
  if p'.next < n + 1 then
    (updated, { p' with next := n + 1 })
  else
    (updated, p')

/-- `Progress::optimistic_update` (src/progress.rs). -/
def Progress.optimistic_update (p : Progress) (n : Nat) : Progress :=
  { p with next := n + 1 }

/-- `Progress::is_paused` (src/progress.rs). -/
def Progress.is_paused (p : Progress) : Bool :=
  match p.state with
  | ProgressState.Probe => p.paused
  | ProgressState.Replicate => p.ins.full
  | ProgressState.Snapshot => true

/-- `Progress::snapshot_failure` (src/progress.rs). -/
def Progress.snapshot_failure (p : Progress) : Progress :=
  { p with pending_snapshot := 0 }

/-- `Progress::need_snapshot_failure` (src/progress.rs):
`state == Snapshot && matched >= pending_snapshot`. -/
def Progress.need_snapshot_failure (p : Progress) : Bool :=
  p.state == ProgressState.Snapshot && decide (p.pending_snapshot ≤ p.matched)

/-- Runs a sequence of `maybe_update` calls, keeping only the state. -/
def Progress.run_updates (p : Progress) (ns : List Nat) : Progress :=
  ns.foldl (fun q n => (q.maybe_update n).2) p

/-! ## The log side (src/raft_log.rs and its collaborators)

`RaftLog` composes a `Storage` and an `Unstable`. Their code
(`storage.rs`, `log_unstable.rs`, `raftpb`) is not among the provided
source files, so those three are modelled from the specification; the
`RaftLog` operations themselves are embedded from src/raft_log.rs. -/

/-- Modelled from the spec: a log entry (`raftpb::Entry`, not in the
provided sources) has a 1-based `index` and a `term`; its opaque payload is
passed through unmodified by everything modelled here and is elided. -/
structure Entry where
  index : Nat
  term : Nat
deriving DecidableEq, Repr

/-- Modelled from the spec: the recoverable conditions a `Storage` term
lookup may report (`errors.rs` is not in the provided sources). Any other
storage failure is fatal in `RaftLog` and never surfaces as a value. -/
inductive StorageError where
  | Compacted
  | Unavailable
deriving DecidableEq, Repr

/-- Modelled from the spec: the external `Storage` collaborator
(`storage.rs` is not in the provided sources) — a durable ordered log
exposing first/last persisted index and term-at-index. `RaftLog` unwraps
(aborts on) errors from `first_index`/`last_index`, so those are modelled
as total; `term` may report `Compacted`/`Unavailable` as typed results. -/
structure Storage where
  first_index : Nat
  last_index : Nat
  term : Nat → Except StorageError Nat

/-- Modelled from the spec: a pending snapshot's metadata (index and term). -/
structure Snapshot where
  index : Nat
  term : Nat
deriving DecidableEq, Repr

/-- Modelled from the spec: `Unstable` (`log_unstable.rs` is not in the
provided sources) — the in-memory tail of entries starting at absolute
index `offset`, plus an optional pending snapshot. -/
structure Unstable where
  offset : Nat
  entries : List Entry
  snapshot : Option Snapshot
deriving DecidableEq, Repr

/-- Modelled from the spec: `maybe_last_index` — the index of the last
unstable entry, or the pending snapshot's index if there are no entries,
or none if both are absent (defer to storage). -/
def Unstable.maybe_last_index (u : Unstable) : Option Nat :=
  match u.entries.getLast? with
  | some e => some e.index
  | none => u.snapshot.map (fun s => s.index)

/-- Modelled from the spec: `maybe_first_index` — `offset` if entries
exist, or snapshot-index + 1 if only a snapshot is pending, else none. -/
def Unstable.maybe_first_index (u : Unstable) : Option Nat :=
  match u.entries with
  | _ :: _ => some u.offset
  | [] => u.snapshot.map (fun s => s.index + 1)

/-- Modelled from the spec: `maybe_term i` — the term recorded for `i` if
`i` falls within the unstable entries, the snapshot's own term if `i`
equals the snapshot index, else none (defer to storage). -/
def Unstable.maybe_term (u : Unstable) (i : Nat) : Option Nat :=
  if u.offset ≤ i ∧ i < u.offset + u.entries.length then
    (u.entries.get? (i - u.offset)).map (fun e => e.term)
  else
    match u.snapshot with
    | some s => if i = s.index then some s.term else none
    | none => none

/-- Modelled from the spec: `truncate_and_append` — new entries either
extend the buffer contiguously, replace it entirely (when they start at or
before `offset`), or truncate the tail from their first index on and take
over from there (last-writer-wins). -/
def Unstable.truncate_and_append (u : Unstable) (ents : List Entry) : Unstable :=
  match ents with
  | [] => u
  | e :: _ =>
    let after := e.index
    if after = u.offset + u.entries.length then
      { u with entries := u.entries ++ ents }
    else if after ≤ u.offset then
      { u with offset := after, entries := ents }
    else
      { u with entries := u.entries.take (after - u.offset) ++ ents }

/-- `struct RaftLog` (src/raft_log.rs): one storage, one unstable tail, the
committed and applied cursors. The `tag` field is only a logging label and
is elided. -/
structure RaftLog where
  storage : Storage
  unstable : Unstable
  committed : Nat
  applied : Nat

/-- `RaftLog::last_index` (src/raft_log.rs): prefer the unstable tail's
answer, fall back to storage. -/
def RaftLog.last_index (l : RaftLog) : Nat :=
  match l.unstable.maybe_last_index with
  | some last_index => last_index
  | none => l.storage.last_index

/-- `RaftLog::first_index` (src/raft_log.rs): prefer the unstable tail's
answer, fall back to storage. -/
def RaftLog.first_index (l : RaftLog) : Nat :=
  match l.unstable.maybe_first_index with
  | some fi => fi
  | none => l.storage.first_index

/-- `RaftLog::term` (src/raft_log.rs): `Ok 0` outside
`[first_index()-1, last_index()]`, else prefer the unstable tail, falling
back to storage, whose `Compacted`/`Unavailable` reports are propagated. -/
def RaftLog.term (l : RaftLog) (i : Nat) : Except StorageError Nat :=
  let dummy_index := l.first_index - 1
  if i < dummy_index ∨ i > l.last_index then
    Except.ok 0
  else
    match l.unstable.maybe_term i with
    | some t => Except.ok t
    | none => l.storage.term i

/-- `RaftLog::applied_to` (src/raft_log.rs): no-op at 0; aborts (`none`)
outside `[applied, committed]`; otherwise advances `applied`. -/
def RaftLog.applied_to (l : RaftLog) (i : Nat) : Option RaftLog :=
  if i = 0 then
    some l
  else if i > l.committed ∨ i < l.applied then
    none
  else
    some { l with applied := i }

/-- `RaftLog::append` (src/raft_log.rs): returns the (possibly new) last
index, aborting (`none`) when the entries' preceding index is below
`committed`. -/
def RaftLog.append (l : RaftLog) (ents : List Entry) : Option (Nat × RaftLog) :=
  match ents with
  | [] => some (l.last_index, l)
  | e :: _ =>
    let after := e.index - 1
    if after < l.committed then
      none
    else
      let l' := { l with unstable := l.unstable.truncate_and_append ents }
      some (l'.last_index, l')

/-- The ways `RaftLog::must_check_out_of_bounds` can fail, one constructor
per `panic!` site in src/raft_log.rs (the second carries the
`Compacted` storage error as its payload). -/
inductive BoundsError where
  | invalidSlice
  | compacted
  | outOfBounds
deriving DecidableEq, Repr

/-- `RaftLog::must_check_out_of_bounds` (src/raft_log.rs), with each
`panic!` mapped to the corresponding `BoundsError`. The argument is spelled
`hight` as in the source. -/
def RaftLog.must_check_out_of_bounds (l : RaftLog) (low hight : Nat) :
    Except BoundsError Unit :=
  if low > hight then
    Except.error BoundsError.invalidSlice
  else
    let fi := l.first_index
    if low < fi then
      Except.error BoundsError.compacted
    else
      let hi := l.last_index + 1
      if low < fi ∨ hight > hi then
        Except.error BoundsError.outOfBounds
      else
        Except.ok ()

/-- `RaftLog::last_term` (src/raft_log.rs): the source body is
`unimplemented!()`, which aborts on every call; modelled as `none`. -/
def RaftLog.last_term (_l : RaftLog) : Option (Except StorageError Nat) :=
  none

/-- Modelled from the spec: the behaviour §9 requires of the unimplemented
`RaftLog::last_term` — return `term(last_index())`, propagating that
lookup's typed errors rather than failing fatally. -/
def RaftLog.last_term_required (l : RaftLog) : Except StorageError Nat :=
  l.term l.last_index

/-! ## Progress lemmas -/

/-- One `maybe_update` call never lowers `matched`. -/
theorem Progress.maybe_update_matched_le (p : Progress) (n : Nat) :
    p.matched ≤ ((p.maybe_update n).2).matched := by
  simp only [Progress.maybe_update, Progress.resume]
  split_ifs <;> dsimp only at * <;> omega

/-- One `maybe_update` call preserves `next ≥ matched + 1`. -/
theorem Progress.maybe_update_inv (p : Progress) (n : Nat)
    (h : p.matched + 1 ≤ p.next) :
    ((p.maybe_update n).2).matched + 1 ≤ ((p.maybe_update n).2).next := by
  simp only [Progress.maybe_update, Progress.resume]
  split_ifs <;> dsimp only at * <;> omega

/-- `next ≥ matched + 1` is preserved by any sequence of `maybe_update`s. -/
theorem Progress.run_updates_inv (p : Progress) (ns : List Nat)
    (h : p.matched + 1 ≤ p.next) :
    (p.run_updates ns).matched + 1 ≤ (p.run_updates ns).next := by
  induction ns generalizing p with
  | nil => exact h
  | cons n ns ih =>
      simpa [Progress.run_updates] using
        ih ((p.maybe_update n).2) (p.maybe_update_inv n h)

/-- `matched` never drops over a whole sequence of `maybe_update`s. -/
theorem Progress.run_updates_matched_le (p : Progress) (ns : List Nat) :
    p.matched ≤ (p.run_updates ns).matched := by
  induction ns generalizing p with
  | nil => exact Nat.le_refl _
  | cons n ns ih =>
      calc p.matched ≤ ((p.maybe_update n).2).matched :=
            p.maybe_update_matched_le n
        _ ≤ _ := by simpa [Progress.run_updates] using ih ((p.maybe_update n).2)

/-- Splitting a sequence of `maybe_update`s at its last call. -/
theorem Progress.run_updates_append_one (p : Progress) (ns : List Nat) (n : Nat) :
    p.run_updates (ns ++ [n]) = ((p.run_updates ns).maybe_update n).2 := by
  simp [Progress.run_updates]

/-- C2: from any state with `next ≥ matched + 1`, along any sequence of
`maybe_update` calls, each call leaves `matched` no smaller than before it,
`next ≥ matched + 1` holds after every call, and `matched` never drops
below its initial value. -/
theorem maybe_update_sequence_invariant (p : Progress) (ns : List Nat) (n : Nat)
    (h : p.matched + 1 ≤ p.next) :
    (p.run_updates ns).matched ≤ (p.run_updates (ns ++ [n])).matched ∧
    (p.run_updates (ns ++ [n])).matched + 1 ≤ (p.run_updates (ns ++ [n])).next ∧
    p.matched ≤ (p.run_updates ns).matched := by
  refine ⟨?_, ?_, p.run_updates_matched_le ns⟩
  · rw [p.run_updates_append_one ns n]
    exact (p.run_updates ns).maybe_update_matched_le n
  · rw [p.run_updates_append_one ns n]
    exact (p.run_updates ns).maybe_update_inv n (p.run_updates_inv ns h)

/-- Initial state for the C2 witness. -/
def updInit : Progress :=
  ⟨2, 4, ProgressState.Replicate, false, 0, false, ⟨0, 0, 2, []⟩, false⟩

/-- C2 witness: the invariant instantiated on a concrete state and a
concrete call sequence `[7, 3]` followed by the call `maybe_update 9`. -/
theorem maybe_update_sequence_invariant_witness :
    (updInit.run_updates [7, 3]).matched ≤
      (updInit.run_updates [7, 3, 9]).matched ∧
    (updInit.run_updates [7, 3, 9]).matched + 1 ≤
      (updInit.run_updates [7, 3, 9]).next ∧
    updInit.matched ≤ (updInit.run_updates [7, 3]).matched :=
  maybe_update_sequence_invariant updInit [7, 3] 9 (by decide)

/-- A follower in Probe state whose `matched` has reached
`pending_snapshot` — outside Snapshot state the source still reports
`false`. -/
def probeCaughtUp : Progress :=
  ⟨5, 6, ProgressState.Probe, false, 3, false, ⟨0, 0, 1, []⟩, false⟩

/-- C7 counterexample: a Progress with `matched ≥ pending_snapshot` on
which `need_snapshot_failure` nonetheless returns `false`, because its
state is Probe rather than Snapshot. -/
theorem need_snapshot_failure_not_matched_only :
    probeCaughtUp.pending_snapshot ≤ probeCaughtUp.matched ∧
    probeCaughtUp.need_snapshot_failure = false := by decide

/-- C7 (amended): `need_snapshot_failure` returns true exactly when the
state is Snapshot and the confirmed matched index has reached or passed
`pending_snapshot`. -/
theorem need_snapshot_failure_iff (p : Progress) :
    p.need_snapshot_failure = true ↔
      p.state = ProgressState.Snapshot ∧ p.pending_snapshot ≤ p.matched := by
  simp [Progress.need_snapshot_failure]

/-- C8: the Scenario B/C pipeline — from `{matched:0, next:11, Probe}`
(remaining fields arbitrary), `become_replicate` gives
`{matched:0, next:1, Replicate}`, two `optimistic_update`s advance `next`
to 6 then 11, `maybe_update 8` reports an update with `matched = 8` and
`next` still 11, and `become_probe` then gives `{matched:8, next:9, Probe}`. -/
theorem scenario_replicate_then_probe (pa ra le : Bool) (ps : Nat)
    (ins : Inflights) :
    let p0 : Progress := ⟨0, 11, ProgressState.Probe, pa, ps, ra, ins, le⟩
    let p1 := p0.become_replicate
    let p2 := p1.optimistic_update 5
    let p3 := p2.optimistic_update 10
    let r4 := p3.maybe_update 8
    let p5 := r4.2.become_probe
    p1.matched = 0 ∧ p1.next = 1 ∧ p1.state = ProgressState.Replicate ∧
    p2.next = 6 ∧ p3.next = 11 ∧
    r4.1 = true ∧ r4.2.matched = 8 ∧ r4.2.next = 11 ∧
    p5.matched = 8 ∧ p5.next = 9 ∧ p5.state = ProgressState.Probe := by
  simp [Progress.become_replicate, Progress.become_probe,
        Progress.reset_state, Progress.optimistic_update,
        Progress.maybe_update, Progress.resume, Inflights.reset]

/-- C9: `become_probe` targets `max(matched+1, pending_snapshot+1)` out of
Snapshot and `matched+1` otherwise; `become_replicate` targets `matched+1`;
`become_snapshot idx` records `pending_snapshot = idx`; and all three
unpause and clear the inflights window. -/
theorem become_transitions_spec (p : Progress) (idx : Nat) :
    ((p.become_probe).next =
      if p.state = ProgressState.Snapshot then
        max (p.matched + 1) (p.pending_snapshot + 1)
      else
        p.matched + 1) ∧
    (p.become_replicate).next = p.matched + 1 ∧
    (p.become_snapshot idx).pending_snapshot = idx ∧
    (p.become_probe).paused = false ∧
    (p.become_replicate).paused = false ∧
    (p.become_snapshot idx).paused = false ∧
    (p.become_probe).ins = p.ins.reset ∧
    (p.become_replicate).ins = p.ins.reset ∧
    (p.become_snapshot idx).ins = p.ins.reset := by
  by_cases h : p.state = ProgressState.Snapshot <;>
    simp [Progress.become_probe, Progress.become_replicate,
          Progress.become_snapshot, Progress.reset_state, h]

/-- C10: `become_probe` and `become_replicate` also zero
`pending_snapshot`, and none of the three transitions touches `matched`,
`recent_active` or the learner flag. -/
theorem become_transitions_frame (p : Progress) (idx : Nat) :
    (p.become_probe).pending_snapshot = 0 ∧
    (p.become_replicate).pending_snapshot = 0 ∧
    (p.become_probe).matched = p.matched ∧
    (p.become_replicate).matched = p.matched ∧
    (p.become_snapshot idx).matched = p.matched ∧
    (p.become_probe).recent_active = p.recent_active ∧
    (p.become_replicate).recent_active = p.recent_active ∧
    (p.become_snapshot idx).recent_active = p.recent_active ∧
    (p.become_probe).is_lenarner = p.is_lenarner ∧
    (p.become_replicate).is_lenarner = p.is_lenarner ∧
    (p.become_snapshot idx).is_lenarner = p.is_lenarner := by
  by_cases h : p.state = ProgressState.Snapshot <;>
    simp [Progress.become_probe, Progress.become_replicate,
          Progress.become_snapshot, Progress.reset_state, h]

/-! ## RaftLog theorems -/

/-- A log whose unstable part holds only a snapshot at index 5 with term 3:
its dummy predecessor index `first_index() - 1` is that snapshot's index. -/
def snapOnlyLog : RaftLog :=
  ⟨⟨1, 0, fun _ => Except.ok 0⟩, ⟨6, [], some ⟨5, 3⟩⟩, 5, 5⟩

/-- C1 counterexample: at `i = first_index() - 1` the term lookup is not 0
when the dummy entry's term is overridden — here the unstable snapshot at
index 5 carries term 3, and `term 5` reports 3. -/
theorem term_at_dummy_not_zero :
    snapOnlyLog.first_index - 1 = 5 ∧
    snapOnlyLog.term 5 = Except.ok 3 ∧
    snapOnlyLog.term 5 ≠ Except.ok 0 := by
  refine ⟨rfl, rfl, fun h => ?_⟩
  have h3 : (3 : Nat) = 0 := by
    have h' : (Except.ok 3 : Except StorageError Nat) = Except.ok 0 := h
    injection h'
  omega

/-- C1 (amended): `term i` returns `Ok 0` for every `i` strictly outside
the closed interval `[first_index()-1, last_index()]`; at the dummy index
`first_index()-1` itself it returns `Ok 0` whenever no unstable or storage
term overrides it. -/
theorem term_outside_zero_dummy_default (l : RaftLog) (i : Nat) :
    (i < l.first_index - 1 ∨ i > l.last_index → l.term i = Except.ok 0) ∧
    (l.unstable.maybe_term (l.first_index - 1) = none →
      l.storage.term (l.first_index - 1) = Except.ok 0 →
      l.term (l.first_index - 1) = Except.ok 0) := by
  constructor
  · intro h
    simp [RaftLog.term, h]
  · intro h1 h2
    by_cases hg : l.first_index - 1 < l.first_index - 1 ∨
        l.first_index - 1 > l.last_index
    · rcases hg with h | h
      · exact absurd h (Nat.lt_irrefl _)
      · simp [RaftLog.term, h]
    · simp [RaftLog.term, hg, h1, h2]

/-- A log backed only by storage over `[1, 3]`, with nothing unstable; its
storage assigns term 0 to the dummy index 0 and term 1 elsewhere. -/
def plainLog : RaftLog :=
  ⟨⟨1, 3, fun i => if i = 0 then Except.ok 0 else Except.ok 1⟩,
   ⟨4, [], none⟩, 0, 0⟩

/-- C1 witness: on `plainLog` (dummy index 0, last index 3), `term 5` is 0
because 5 is out of range, and `term 0` is 0 because nothing overrides the
dummy entry. -/
theorem term_outside_zero_dummy_default_witness :
    plainLog.term 5 = Except.ok 0 ∧ plainLog.term 0 = Except.ok 0 :=
  ⟨(term_outside_zero_dummy_default plainLog 5).1 (Or.inr (by decide)),
   (term_outside_zero_dummy_default plainLog 0).2 rfl rfl⟩

/-- C3: `append` of nothing returns the current last index and the state
unchanged; `append` aborts when the entries' preceding index is below
`committed`; otherwise it rewrites the unstable tail through
`truncate_and_append` and returns the resulting last index. -/
theorem append_spec (l : RaftLog) (e : Entry) (rest : List Entry) :
    l.append [] = some (l.last_index, l) ∧
    (e.index - 1 < l.committed → l.append (e :: rest) = none) ∧
    (l.committed ≤ e.index - 1 →
      l.append (e :: rest) =
        some
          (({ l with unstable := l.unstable.truncate_and_append (e :: rest) } :
              RaftLog).last_index,
            { l with unstable := l.unstable.truncate_and_append (e :: rest) })) := by
  refine ⟨rfl, fun h => ?_, fun h => ?_⟩
  · simp [RaftLog.append, h]
  · simp [RaftLog.append, Nat.not_lt.mpr h]

/-- An empty log: storage over `[1, 0]`, nothing unstable, nothing
committed. -/
def appLog : RaftLog :=
  ⟨⟨1, 0, fun _ => Except.ok 0⟩, ⟨1, [], none⟩, 0, 0⟩

/-- A log with committed = 5, storage over `[1, 5]`, nothing unstable. -/
def appLogCommitted : RaftLog :=
  ⟨⟨1, 5, fun _ => Except.ok 0⟩, ⟨6, [], none⟩, 5, 0⟩

/-- C3 witness: on the empty log, appending nothing yields last index 0
and no change; appending an entry at index 4 while committed = 5 aborts
(preceding index 3 < 5); appending an entry at index 1 to the empty log
succeeds with new last index 1. -/
theorem append_spec_witness :
    appLog.append [] = some (appLog.last_index, appLog) ∧
    appLogCommitted.append [⟨4, 2⟩] = none ∧
    appLog.append [⟨1, 1⟩] =
      some
        (({ appLog with
              unstable := appLog.unstable.truncate_and_append [⟨1, 1⟩] } :
            RaftLog).last_index,
          { appLog with
              unstable := appLog.unstable.truncate_and_append [⟨1, 1⟩] }) ∧
    ({ appLog with
        unstable := appLog.unstable.truncate_and_append [⟨1, 1⟩] } :
      RaftLog).last_index = 1 :=
  ⟨(append_spec appLog ⟨1, 1⟩ []).1,
   (append_spec appLogCommitted ⟨4, 2⟩ []).2.1 (by decide),
   (append_spec appLog ⟨1, 1⟩ []).2.2 (by decide),
   rfl⟩

/-- C4: `applied_to 0` changes nothing; a nonzero target outside
`[applied, committed]` aborts; a nonzero target inside moves `applied` to
it; consequently, whenever `applied ≤ committed` held before a successful
call, `applied` never moves backwards nor past `committed`. -/
theorem applied_to_spec (l : RaftLog) (i : Nat) :
    l.applied_to 0 = some l ∧
    (i ≠ 0 → i > l.committed ∨ i < l.applied → l.applied_to i = none) ∧
    (i ≠ 0 → i ≤ l.committed → l.applied ≤ i →
      l.applied_to i = some { l with applied := i }) ∧
    (l.applied ≤ l.committed →
      ∀ l', l.applied_to i = some l' →
        l.applied ≤ l'.applied ∧ l'.applied ≤ l.committed) := by
  refine ⟨rfl, fun h0 h => ?_, fun h0 h1 h2 => ?_, fun hinv l' hl' => ?_⟩
  · simp only [RaftLog.applied_to]
    rw [if_neg h0, if_pos h]
  · simp only [RaftLog.applied_to]
    rw [if_neg h0, if_neg (show ¬(i > l.committed ∨ i < l.applied) by omega)]
  · simp only [RaftLog.applied_to] at hl'
    by_cases hA : i = 0
    · rw [if_pos hA] at hl'
      obtain rfl : l = l' := Option.some.inj hl'
      exact ⟨Nat.le_refl _, hinv⟩
    · rw [if_neg hA] at hl'
      by_cases hB : i > l.committed ∨ i < l.applied
      · rw [if_pos hB] at hl'
        exact Option.noConfusion hl'
      · rw [if_neg hB] at hl'
        obtain rfl : { l with applied := i } = l' := Option.some.inj hl'
        refine ⟨?_, ?_⟩ <;> dsimp only <;> omega

/-- A log with applied = 1 and committed = 3, storage over `[1, 5]`. -/
def apLog : RaftLog :=
  ⟨⟨1, 5, fun _ => Except.ok 0⟩, ⟨6, [], none⟩, 3, 1⟩

/-- C4 witness: with applied = 1 and committed = 3, `applied_to 0` is a
no-op, `applied_to 4` aborts (past committed), and `applied_to 2` advances
`applied` to 2, which indeed stays within `[1, 3]`. -/
theorem applied_to_spec_witness :
    apLog.applied_to 0 = some apLog ∧
    apLog.applied_to 4 = none ∧
    apLog.applied_to 2 = some { apLog with applied := 2 } ∧
    (apLog.applied ≤ ({ apLog with applied := 2 } : RaftLog).applied ∧
      ({ apLog with applied := 2 } : RaftLog).applied ≤ apLog.committed) :=
  ⟨(applied_to_spec apLog 0).1,
   (applied_to_spec apLog 4).2.1 (by decide) (Or.inl (by decide)),
   (applied_to_spec apLog 2).2.2.1 (by decide) (by decide) (by decide),
   (applied_to_spec apLog 2).2.2.2 (by decide) _ rfl⟩

/-- C5: `must_check_out_of_bounds low hight` reports the invalid-slice
fatal condition when `low > hight`; reports the compacted condition when
`low ≤ hight` but `low` precedes `first_index()`; reports the out-of-bound
fatal condition when `hight` exceeds `last_index() + 1`; and succeeds in
every remaining case. -/
theorem must_check_out_of_bounds_spec (l : RaftLog) (low hight : Nat) :
    (low > hight →
      l.must_check_out_of_bounds low hight =
        Except.error BoundsError.invalidSlice) ∧
    (low ≤ hight → low < l.first_index →
      l.must_check_out_of_bounds low hight =
        Except.error BoundsError.compacted) ∧
    (low ≤ hight → l.first_index ≤ low → hight > l.last_index + 1 →
      l.must_check_out_of_bounds low hight =
        Except.error BoundsError.outOfBounds) ∧
    (low ≤ hight → l.first_index ≤ low → hight ≤ l.last_index + 1 →
      l.must_check_out_of_bounds low hight = Except.ok ()) := by
  refine ⟨fun h => ?_, fun h1 h2 => ?_, fun h1 h2 h3 => ?_, fun h1 h2 h3 => ?_⟩
  · simp [RaftLog.must_check_out_of_bounds, h]
  · simp [RaftLog.must_check_out_of_bounds, Nat.not_lt.mpr h1, h2]
  · simp [RaftLog.must_check_out_of_bounds, Nat.not_lt.mpr h1,
      Nat.not_lt.mpr h2, h3]
  · simp [RaftLog.must_check_out_of_bounds, Nat.not_lt.mpr h1,
      Nat.not_lt.mpr h2, Nat.not_lt.mpr h3]

/-- A log backed by storage over `[1, 5]` with nothing unstable, so slices
must fall within `[1, 6]`. -/
def boundsLog : RaftLog :=
  ⟨⟨1, 5, fun _ => Except.ok 0⟩, ⟨6, [], none⟩, 0, 0⟩

/-- C5 witness: on a log with first index 1 and last index 5, the slice
`[3,2)` is invalid, `[0,2)` hits compacted history, `[2,9)` runs past the
end, and `[2,5)` passes the check. -/
theorem must_check_out_of_bounds_spec_witness :
    boundsLog.must_check_out_of_bounds 3 2 =
      Except.error BoundsError.invalidSlice ∧
    boundsLog.must_check_out_of_bounds 0 2 =
      Except.error BoundsError.compacted ∧
    boundsLog.must_check_out_of_bounds 2 9 =
      Except.error BoundsError.outOfBounds ∧
    boundsLog.must_check_out_of_bounds 2 5 = Except.ok () :=
  ⟨(must_check_out_of_bounds_spec boundsLog 3 2).1 (by decide),
   (must_check_out_of_bounds_spec boundsLog 0 2).2.1 (by decide) (by decide),
   (must_check_out_of_bounds_spec boundsLog 2 9).2.2.1 (by decide) (by decide)
     (by decide),
   (must_check_out_of_bounds_spec boundsLog 2 5).2.2.2 (by decide) (by decide)
     (by decide)⟩

/-- A freshly started log over empty storage (first index 1, last index 0). -/
def freshLog : RaftLog :=
  ⟨⟨1, 0, fun _ => Except.ok 0⟩, ⟨1, [], none⟩, 0, 0⟩

/-- C6: the source body of `last_term` is `unimplemented!()` and aborts on
every call — even on a perfectly ordinary log — whereas the behaviour the
spec requires of it, `term(last_index())`, is a defined typed result there
(term 0 on the fresh log). -/
theorem last_term_unimplemented :
    freshLog.last_term = none ∧
    freshLog.last_term_required = freshLog.term freshLog.last_index ∧
    freshLog.last_term_required = Except.ok 0 :=
  ⟨rfl, rfl, rfl⟩

end Libraft
